import Mathlib

/-!
Shallow embedding of the GitHub-comment upsert scripts and the package build
task of the govuk-frontend repository
(`.github/workflows/scripts/comments.mjs`, `packages/govuk-frontend/tasks/build/package.mjs`),
together with proofs about their behaviour.
-/

set_option maxHeartbeats 1000000

namespace GovukFrontend

/-! ### String helpers mirroring the JavaScript primitives used by the scripts -/

/-- JS `Array.prototype.join(sep)` on a list of strings. -/
def joinSep (sep : String) : List String → String
  | [] => ""
  | [s] => s
  | s :: t :: rest => s ++ sep ++ joinSep sep (t :: rest)

/-- `startsWithL pat s` holds when `pat` occurs at the very beginning of `s`
(character lists). -/
def startsWithL : List Char → List Char → Bool
  | [], _ => true
  | _ :: _, [] => false
  | a :: as, b :: bs => a == b && startsWithL as bs

/-- `containsL pat s` holds when `pat` occurs contiguously anywhere inside `s`
(character lists); this is JS `String.prototype.includes`. -/
def containsL (pat : List Char) : List Char → Bool
  | [] => pat.isEmpty
  | c :: cs => startsWithL pat (c :: cs) || containsL pat cs

/-- JS `s.includes(pat)`. -/
def strIncludes (s pat : String) : Bool := containsL pat.data s.data

/-! ### Data model of the comment scripts (`comments.mjs`) -/

/-- An issue comment as stored on GitHub: numeric id plus body text. -/
structure IssueComment where
  id : Nat
  body : String
deriving Repr, DecidableEq

/-- The repository coordinates inside the GitHub Action context. -/
structure Repo where
  owner : String
  repo : String
deriving Repr, DecidableEq

/-- The `context` field of the action context (`context.repo`, `context.runId`). -/
structure ActionContext where
  repo : Repo
  runId : Nat
deriving Repr, DecidableEq

/-- `GithubActionContext` from `comments.mjs`: action context plus triggering
commit SHA.  (The authenticated API client is modelled by the explicit comment
store / page list the operations receive.) -/
structure GithubActionContext where
  context : ActionContext
  commit : String
deriving Repr, DecidableEq

/-- The `{ markerText, titleText, bodyText }` argument of `comment`, also used
to record a single upsert call made by `commentDiff`. -/
structure CommentInput where
  markerText : String
  titleText : String
  bodyText : String
deriving Repr, DecidableEq

/-- `githubActionRunUrl(context)` from `comments.mjs`; `env` models
`process.env.GITHUB_RUN_ATTEMPT`. -/
def githubActionRunUrl (env : String) (ctx : ActionContext) : String :=
  "https://github.com/" ++ ctx.repo.owner ++ "/" ++ ctx.repo.repo ++
    "/actions/runs/" ++ toString ctx.runId ++ "/attempts/" ++ env

/-- `renderCommentFooter({ context, commit })` from `comments.mjs`. -/
def renderCommentFooter (env : String) (ctx : ActionContext) (commit : String) : String :=
  "[Action run](" ++ githubActionRunUrl env ctx ++ ") for " ++ commit

/-- The marker token `` `<!-- ${markerText} -->` `` built by `comment`. -/
def mkMarker (markerText : String) : String := "<!-- " ++ markerText ++ " -->"

/-- The full body composed by `comment`:
`[marker, '## title', bodyText, '\n---', footer].join('\n')`. -/
def composeBody (env : String) (ctx : GithubActionContext) (input : CommentInput) : String :=
  joinSep "\n"
    [ mkMarker input.markerText
    , "## " ++ input.titleText
    , input.bodyText
    , "\n---"
    , renderCommentFooter env ctx.context ctx.commit ]

/-- The match predicate of the pagination scan:
`(comment) => !!comment.body?.includes(marker)`. -/
def isMatch (marker : String) (c : IssueComment) : Bool := strIncludes c.body marker

/-- The body of the `for await` pagination loop of `comment`: each page is
scanned with `comments.find(...)`; on a match the accumulator (`commentId`) is
overwritten, otherwise it is kept; there is no early exit. -/
def scanPages (marker : String) (acc : Option Nat) : List (List IssueComment) → Option Nat
  | [] => acc
  | page :: rest =>
      scanPages marker
        (match page.find? (isMatch marker) with
          | some c => some c.id
          | none => acc)
        rest

/-- The value of `commentId` after the pagination loop of `comment`
(`none` models the JS variable staying `undefined`). -/
def findCommentId (marker : String) (pages : List (List IssueComment)) : Option Nat :=
  scanPages marker none pages

/-- `github.rest.issues.updateComment`: replace the body of the comment with
the given id, leaving everything else in place. -/
def updateComment (store : List IssueComment) (cid : Nat) (body : String) : List IssueComment :=
  store.map fun c => if c.id == cid then { c with body := body } else c

/-- `github.rest.issues.createComment`: append a new comment, which GitHub
assigns the fresh id `nextId`. -/
def createComment (store : List IssueComment) (nextId : Nat) (body : String) : List IssueComment :=
  store ++ [⟨nextId, body⟩]

/-- The `comment` upsert from `comments.mjs`, acting on the comment store of
the target issue.  The store is supplied in the paginated form the listing
iterator returns (`pages`, whose concatenation is the store); `nextId` is the
id GitHub would assign on creation.  After the full pagination scan the JS
code runs `!commentId ? createComment : updateComment`, so the create branch
is taken both when no id was recorded and when the recorded id is `0`
(JS truthiness). -/
def comment (env : String) (ctx : GithubActionContext) (pages : List (List IssueComment))
    (nextId : Nat) (input : CommentInput) : List IssueComment :=
  let body := composeBody env ctx input
  match findCommentId (mkMarker input.markerText) pages with
  | none => createComment pages.flatten nextId body
  | some cid =>
      if cid != 0 then updateComment pages.flatten cid body
      else createComment pages.flatten nextId body

/-- A diff descriptor (`DiffComment` typedef in `comments.mjs`). -/
structure DiffComment where
  path : String
  titleText : String
  markerText : String
deriving Repr, DecidableEq

/-- The fallback body posted by `commentDiff` when the first post throws:
a plain-text message whose link is the action-run URL with `#artifacts`
appended. -/
def fallbackBodyText (env : String) (ctx : ActionContext) : String :=
  "The diff could not be posted as a comment. You can download it from the [workflow artifacts](" ++
    githubActionRunUrl env ctx ++ "#artifacts)."

/-- `commentDiff` from `comments.mjs`.  The file-system read result is passed
in as `readResult` (`Except.error` models `readFile` rejecting); `post1Ok` and
`post2Ok` say whether the first `comment` call and the fallback `comment` call
succeed.  The value is the list of upsert calls actually issued together with
the overall outcome.  Note that the `readFile` happens *before* the
`try`/`catch`, so a read failure issues no call and propagates. -/
def commentDiff (env : String) (ctx : GithubActionContext) (dc : DiffComment)
    (readResult : Except String String) (post1Ok post2Ok : Bool) :
    List CommentInput × Except String Unit :=
  match readResult with
  | .error e => ([], .error e)
  | .ok content =>
      let diffText := if content = "" then "No changes found." else content
      let call1 : CommentInput :=
        ⟨dc.markerText, dc.titleText, "```diff\n" ++ diffText ++ "\n```"⟩
      if post1Ok then ([call1], .ok ())
      else
        let call2 : CommentInput :=
          ⟨dc.markerText, dc.titleText, fallbackBodyText env ctx.context⟩
        if post2Ok then ([call1, call2], .ok ())
        else ([call1, call2], .error "fallback comment failed")

/-- Whether a settled result is rejected (`result.status === 'rejected'`). -/
def isRejected (r : Except String Unit) : Bool :=
  match r with
  | .error _ => true
  | .ok _ => false

/-- `commentDiffs` from `comments.mjs`: every descriptor's report is run
(`Promise.allSettled` waits for all of them, one failure cancels nothing);
`run` gives the settled outcome of each per-descriptor `commentDiff`.  If any
result is rejected, a single aggregate error is thrown whose cause is the full
settled result list. -/
def commentDiffs (run : DiffComment → Except String Unit) (diffs : List DiffComment) :
    Except (String × List (Except String Unit)) Unit :=
  let results := diffs.map run
  if results.any isRejected then
    .error ("Posting diff comment failed", results)
  else .ok ()

/-- `renderTable` from `comments.mjs`; the thrown `Error` is modelled by
`Except.error` with the source's message. -/
def renderTable (headers : List String) (rows : List (List String)) : Except String String :=
  if rows.all (fun row => row.length == headers.length) then
    .ok (joinSep "\n"
      ([ "| " ++ joinSep " | " headers ++ " |"
       , "| " ++ joinSep " | " (List.replicate headers.length "---") ++ " |" ]
       ++ rows.map (fun row => "| " ++ joinSep " | " row ++ " |")) ++ "\n")
  else
    .error "All rows must have the same number of elements as the headers."

/-! ### Data model of the package build task (`package.mjs`) -/

/-- The task options object (`options.srcPath`, `options.destPath`,
`options.basePath`) threaded through the build sub-tasks. -/
structure TaskOptions where
  srcPath : String
  destPath : String
  basePath : String
deriving Repr, DecidableEq

/-- `join` from `path`, as used with two segments in `package.mjs`. -/
def pathJoin (a b : String) : String := a ++ "/" ++ b

/-- One step of the `gulp.series(...)` in `package.mjs`. -/
inductive PackageTask where
  | npmScript (script : String) (args : List String) (basePath : String)
  | assets (options : TaskOptions)
  | fixtures (options : TaskOptions)
  | scripts (options : TaskOptions)
  | styles (options : TaskOptions)
  | templates (options : TaskOptions)
  | copyFiles (pattern : String) (srcPath destPath : String)
deriving Repr, DecidableEq

/-- The `gulp.series` argument list of the default export of `package.mjs`;
`pathsStats` is the external configuration constant `paths.stats`. -/
def buildPackage (pathsStats : String) (options : TaskOptions) : List PackageTask :=
  [ .npmScript "clean" [] pathsStats
  , .npmScript "clean:package" [] options.basePath
  , .assets options
  , .fixtures options
  , .scripts options
  , .styles options
  , .templates options
  , .copyFiles "**/*.js" (pathJoin options.srcPath "govuk-prototype-kit")
      (pathJoin options.destPath "govuk-prototype-kit") ]

/-! ### Specification-side definition for the pagination-refinement claim -/

/-- Written from the spec's words, for comparison with `findCommentId`:
"the recorded ID is taken from the last page scanned that contains a match",
the match within that page being the first one (`comments.find`). -/
def specLastMatchId (marker : String) (pages : List (List IssueComment)) : Option Nat :=
  match (pages.filter (fun p => p.any (isMatch marker))).getLast? with
  | some p => (p.find? (isMatch marker)).map (fun c => c.id)
  | none => none

/-! ### Concrete values used by witnesses and counterexamples -/

/-- A concrete action context for closed statements. -/
def ctx0 : GithubActionContext :=
  { context := { repo := { owner := "alphagov", repo := "govuk-frontend" }, runId := 7 }
  , commit := "abc1234" }

/-- A concrete upsert input with marker text `M`. -/
def input0 : CommentInput := { markerText := "M", titleText := "Title", bodyText := "body-one" }

/-- Same marker as `input0`, different body. -/
def input1 : CommentInput := { markerText := "M", titleText := "Title", bodyText := "body-two" }

/-- A concrete diff descriptor. -/
def dc0 : DiffComment := { path := "dist-js.diff", titleText := "JS changes", markerText := "dist-diff-js" }

/-- Concrete per-descriptor outcomes: the descriptor with path `"bad"` fails. -/
def run0 (d : DiffComment) : Except String Unit :=
  if d.path = "bad" then .error "boom" else .ok ()

/-- Three concrete descriptors with exactly one failing under `run0`. -/
def diffs0 : List DiffComment :=
  [ { path := "a", titleText := "A", markerText := "ma" }
  , { path := "bad", titleText := "B", markerText := "mb" }
  , { path := "c", titleText := "C", markerText := "mc" } ]

/-! ### Helper lemmas -/

theorem startsWithL_append (p t : List Char) : startsWithL p (p ++ t) = true := by
  induction p with
  | nil => rfl
  | cons a as ih => simp [startsWithL, ih]

theorem containsL_of_startsWithL (pat s : List Char) (h : startsWithL pat s = true) :
    containsL pat s = true := by
  cases s with
  | nil =>
      cases pat with
      | nil => rfl
      | cons a as => simp [startsWithL] at h
  | cons c cs => simp [containsL, h]

theorem containsL_append3 (s pat t : List Char) : containsL pat (s ++ pat ++ t) = true := by
  induction s with
  | nil =>
      exact containsL_of_startsWithL pat (pat ++ t) (startsWithL_append pat t)
  | cons c cs ih =>
      simp only [List.cons_append, containsL, Bool.or_eq_true]
      exact Or.inr (by simpa using ih)

theorem strIncludes_append3 (s pat t : String) : strIncludes (s ++ pat ++ t) pat = true := by
  have h := containsL_append3 s.data pat.data t.data
  simpa [strIncludes, String.data_append] using h

theorem composeBody_startsWith (env : String) (ctx : GithubActionContext) (input : CommentInput) :
    startsWithL (mkMarker input.markerText).data (composeBody env ctx input).data = true := by
  have he : composeBody env ctx input =
      mkMarker input.markerText ++ "\n" ++
        joinSep "\n" [ "## " ++ input.titleText, input.bodyText, "\n---",
          renderCommentFooter env ctx.context ctx.commit ] := rfl
  rw [he]
  simp only [String.data_append, List.append_assoc]
  exact startsWithL_append _ _

theorem isMatch_composeBody (env : String) (ctx : GithubActionContext) (input : CommentInput)
    (i : Nat) : isMatch (mkMarker input.markerText) ⟨i, composeBody env ctx input⟩ = true := by
  have he : composeBody env ctx input =
      mkMarker input.markerText ++ "\n" ++
        joinSep "\n" [ "## " ++ input.titleText, input.bodyText, "\n---",
          renderCommentFooter env ctx.context ctx.commit ] := rfl
  unfold isMatch strIncludes
  rw [he]
  simp only [String.data_append, List.append_assoc]
  exact containsL_of_startsWithL _ _ (startsWithL_append _ _)

theorem scanPages_append (marker : String) (ps qs : List (List IssueComment)) (acc : Option Nat) :
    scanPages marker acc (ps ++ qs) = scanPages marker (scanPages marker acc ps) qs := by
  induction ps generalizing acc with
  | nil => rfl
  | cons p rest ih => simp [scanPages, ih]

theorem scanPages_eq_spec (marker : String) (pages : List (List IssueComment)) :
    ∀ acc : Option Nat, scanPages marker acc pages =
      (match specLastMatchId marker pages with
       | some v => some v
       | none => acc) := by
  induction pages using List.reverseRecOn with
  | nil => intro acc; rfl
  | append_singleton ps p ih =>
      intro acc
      rw [scanPages_append]
      cases hf : p.find? (isMatch marker) with
      | some c =>
          have hany : p.any (isMatch marker) = true :=
            List.any_eq_true.mpr ⟨c, List.mem_of_find?_eq_some hf, List.find?_some hf⟩
          simp only [scanPages, hf]
          unfold specLastMatchId
          rw [List.filter_append, List.filter_cons_of_pos (by simpa using hany)]
          simp [List.getLast?_concat, hf]
      | none =>
          have hany : p.any (isMatch marker) = false := by
            rw [List.any_eq_false]
            intro c hc
            exact (List.find?_eq_none.mp hf) c hc
          simp only [scanPages, hf]
          rw [ih acc]
          unfold specLastMatchId
          rw [List.filter_append, List.filter_cons_of_neg (by simp [hany])]
          simp

theorem findCommentId_eq_spec (marker : String) (pages : List (List IssueComment)) :
    findCommentId marker pages = specLastMatchId marker pages := by
  unfold findCommentId
  rw [scanPages_eq_spec]
  cases specLastMatchId marker pages <;> rfl

theorem findCommentId_eq_none (marker : String) (pages : List (List IssueComment))
    (h : ∀ c ∈ pages.flatten, isMatch marker c = false) :
    findCommentId marker pages = none := by
  rw [findCommentId_eq_spec]
  unfold specLastMatchId
  have hfil : pages.filter (fun p => p.any (isMatch marker)) = [] := by
    rw [List.filter_eq_nil_iff]
    intro p hp hany
    obtain ⟨c, hc, hm⟩ := List.any_eq_true.mp (by simpa using hany)
    exact absurd (h c (List.mem_flatten.mpr ⟨p, hp, hc⟩)) (by simp [hm])
  rw [hfil]
  rfl

theorem findCommentId_unique (marker : String) (pages : List (List IssueComment)) (n : Nat)
    (h1 : ∀ c ∈ pages.flatten, isMatch marker c = true → c.id = n)
    (h2 : ∃ c ∈ pages.flatten, isMatch marker c = true) :
    findCommentId marker pages = some n := by
  rw [findCommentId_eq_spec]
  unfold specLastMatchId
  obtain ⟨c, hc, hm⟩ := h2
  obtain ⟨p, hp, hcp⟩ := List.mem_flatten.mp hc
  have hpfil : p ∈ pages.filter (fun p => p.any (isMatch marker)) :=
    List.mem_filter.mpr ⟨hp, by simpa using List.any_eq_true.mpr ⟨c, hcp, hm⟩⟩
  have hne : pages.filter (fun p => p.any (isMatch marker)) ≠ [] := by
    intro hnil; rw [hnil] at hpfil; exact absurd hpfil (List.not_mem_nil p)
  cases hlast : (pages.filter (fun p => p.any (isMatch marker))).getLast? with
  | none => exact absurd (List.getLast?_eq_none_iff.mp hlast) hne
  | some q =>
      have hqfil : q ∈ pages.filter (fun p => p.any (isMatch marker)) := by
        have hmem : q ∈ (pages.filter (fun p => p.any (isMatch marker))).getLast? := by
          rw [hlast]; rfl
        obtain ⟨hq, heq⟩ := List.mem_getLast?_eq_getLast hmem
        rw [heq]; exact List.getLast_mem hq
      obtain ⟨hqpages, hqany⟩ := List.mem_filter.mp hqfil
      obtain ⟨c', hc'q, hm'⟩ := List.any_eq_true.mp (by simpa using hqany)
      have hsome : (q.find? (isMatch marker)).isSome := List.find?_isSome.mpr ⟨c', hc'q, hm'⟩
      cases hfind : q.find? (isMatch marker) with
      | none => rw [hfind] at hsome; simp at hsome
      | some d =>
          have hdq : d ∈ q := List.mem_of_find?_eq_some hfind
          have hdm : isMatch marker d = true := List.find?_some hfind
          have hdid : d.id = n :=
            h1 d (List.mem_flatten.mpr ⟨q, hqpages, hdq⟩) hdm
          simp [hfind, hdid]

theorem updateComment_of_ne (l : List IssueComment) (cid : Nat) (b : String)
    (h : ∀ c ∈ l, c.id ≠ cid) : updateComment l cid b = l := by
  induction l with
  | nil => rfl
  | cons c cs ih =>
      unfold updateComment at ih ⊢
      have hc : (c.id == cid) = false := by
        simpa using h c (List.mem_cons_self c cs)
      simp only [List.map_cons, hc]
      rw [ih (fun d hd => h d (List.mem_cons_of_mem c hd))]
      simp

/-! ### Claim theorems -/

/-- **C8.** `renderTable` raises an error (producing no output) if and only if
some row's length differs from the headers' length; on
`['File','Size']` with rows `[['a.js','1 KiB'],['b.css','2 KiB']]` it produces
the 4-line pipe-delimited table: header row, divider row of two `---` cells,
then the two data rows. -/
theorem renderTable_spec :
    (∀ (headers : List String) (rows : List (List String)),
      renderTable headers rows =
          Except.error "All rows must have the same number of elements as the headers." ↔
        ∃ row ∈ rows, row.length ≠ headers.length)
    ∧ renderTable ["File", "Size"] [["a.js", "1 KiB"], ["b.css", "2 KiB"]] =
        Except.ok ("| File | Size |" ++ "\n" ++ "| --- | --- |" ++ "\n" ++
          "| a.js | 1 KiB |" ++ "\n" ++ "| b.css | 2 KiB |" ++ "\n") := by
  constructor
  · intro headers rows
    unfold renderTable
    cases hall : rows.all (fun row => row.length == headers.length) with
    | true =>
        rw [if_pos rfl]
        constructor
        · intro h; exact absurd h (by simp)
        · rintro ⟨row, hrow, hne⟩
          exact absurd (by simpa using List.all_eq_true.mp hall row hrow) hne
    | false =>
        rw [if_neg (by simp)]
        constructor
        · intro _
          obtain ⟨row, hrow, hp⟩ := List.all_eq_false.mp hall
          exact ⟨row, hrow, by simpa using hp⟩
        · intro _; rfl
  · rfl

/-- **C8 witness.** The mismatched-row case of `renderTable_spec` at a concrete
input: a two-column header with a one-element row raises the error. -/
theorem renderTable_spec_witness :
    renderTable ["File", "Size"] [["only-one"]] =
      Except.error "All rows must have the same number of elements as the headers." :=
  (renderTable_spec.1 ["File", "Size"] [["only-one"]]).mpr
    ⟨["only-one"], by decide, by decide⟩

/-- **C9.** The package build task is exactly this fixed sequence: clean the
stats output directory, clean the package output directory, assets, fixtures,
scripts, styles, templates, then copy the `**/*.js` glob from the
`govuk-prototype-kit` source directory into the mirrored destination
directory — no other steps and no reordering. -/
theorem buildPackage_spec (pathsStats : String) (options : TaskOptions) :
    buildPackage pathsStats options =
      [ PackageTask.npmScript "clean" [] pathsStats
      , PackageTask.npmScript "clean:package" [] options.basePath
      , PackageTask.assets options
      , PackageTask.fixtures options
      , PackageTask.scripts options
      , PackageTask.styles options
      , PackageTask.templates options
      , PackageTask.copyFiles "**/*.js" (options.srcPath ++ "/" ++ "govuk-prototype-kit")
          (options.destPath ++ "/" ++ "govuk-prototype-kit") ] := rfl

/-- **C10.** The upsert tests the recorded comment id for truthiness, not
presence: when the pagination scan records id `0`, the create branch runs and
a new comment is appended instead of the matched one being updated. -/
theorem comment_id_zero_creates (env : String) (ctx : GithubActionContext)
    (pages : List (List IssueComment)) (nextId : Nat) (input : CommentInput)
    (h : findCommentId (mkMarker input.markerText) pages = some 0) :
    comment env ctx pages nextId input =
      pages.flatten ++ [⟨nextId, composeBody env ctx input⟩] := by
  unfold comment
  rw [h]
  simp [createComment]

/-- **C10 witness.** A store whose only comment contains the marker but has
id `0`: the upsert appends a new comment. -/
theorem comment_id_zero_creates_witness :
    comment "1" ctx0 [[⟨0, "<!-- M -->x"⟩]] 7 input0 =
      [⟨0, "<!-- M -->x"⟩, ⟨7, composeBody "1" ctx0 input0⟩] := by
  have h := comment_id_zero_creates "1" ctx0 [[⟨0, "<!-- M -->x"⟩]] 7 input0 (by decide)
  simpa using h

/-- **C2 counterexample.** The claim "creates a new comment exactly when no ID
was recorded" fails: on a page whose matching comment has id `0`, an id *is*
recorded (`some 0`), yet the upsert creates instead of updating the comment at
the recorded id. -/
theorem comment_pagination_claim_false :
    findCommentId (mkMarker "M") [[⟨0, "<!-- M -->x"⟩]] = some 0
    ∧ comment "1" ctx0 [[⟨0, "<!-- M -->x"⟩]] 7 input0 ≠
        updateComment [⟨0, "<!-- M -->x"⟩] 0 (composeBody "1" ctx0 input0) := by
  constructor
  · decide
  · decide

/-- **C2 (amended).** The upsert enumerates all pages with no early exit: the
recorded id is the first match of the last page containing a match
(`specLastMatchId`, written from the spec); after full pagination it creates a
new comment exactly when no id was recorded *or the recorded id is `0`*, and
otherwise updates the comment at the recorded id with the composed body. -/
theorem comment_pagination_spec (env : String) (ctx : GithubActionContext)
    (pages : List (List IssueComment)) (nextId : Nat) (input : CommentInput) :
    findCommentId (mkMarker input.markerText) pages =
        specLastMatchId (mkMarker input.markerText) pages
    ∧ comment env ctx pages nextId input =
        (match specLastMatchId (mkMarker input.markerText) pages with
          | none => pages.flatten ++ [⟨nextId, composeBody env ctx input⟩]
          | some cid =>
              if cid = 0 then pages.flatten ++ [⟨nextId, composeBody env ctx input⟩]
              else updateComment pages.flatten cid (composeBody env ctx input)) := by
  refine ⟨findCommentId_eq_spec _ _, ?_⟩
  unfold comment createComment
  rw [findCommentId_eq_spec]
  cases specLastMatchId (mkMarker input.markerText) pages with
  | none => rfl
  | some cid =>
      by_cases h : cid = 0
      · subst h; simp
      · simp [h]

/-- **C3 counterexample.** With marker duplicates on two different pages
(ids `1` then `2`), the upsert records id `2` — the match from the *last*
page — not id `1`, the first matching comment encountered during
pagination. -/
theorem comment_first_encountered_claim_false :
    findCommentId (mkMarker "M") [[⟨1, "<!-- M --> one"⟩], [⟨2, "<!-- M --> two"⟩]] = some 2
    ∧ findCommentId (mkMarker "M") [[⟨1, "<!-- M --> one"⟩], [⟨2, "<!-- M --> two"⟩]] ≠
        some 1 := by
  constructor
  · decide
  · decide

/-- **C3 (amended).** When duplicates exist, the comment treated as "the"
comment is the *first* match within the *last* page that contains a match
(`find?` picks the first match of a page; later pages overwrite earlier
ones). -/
theorem comment_dup_last_page_wins (marker : String) (pages : List (List IssueComment))
    (page : List IssueComment) (c : IssueComment)
    (h : page.find? (isMatch marker) = some c) :
    findCommentId marker (pages ++ [page]) = some c.id := by
  unfold findCommentId
  rw [scanPages_append]
  simp [scanPages, h]

/-- **C3 witness.** `comment_dup_last_page_wins` at a concrete two-page store
with duplicates: the first match of the last page (id `2`) wins. -/
theorem comment_dup_last_page_wins_witness :
    findCommentId (mkMarker "M") ([[⟨1, "<!-- M --> one"⟩]] ++ [[⟨2, "<!-- M --> two"⟩]]) =
      some 2 :=
  comment_dup_last_page_wins (mkMarker "M") [[⟨1, "<!-- M --> one"⟩]]
    [⟨2, "<!-- M --> two"⟩] ⟨2, "<!-- M --> two"⟩ (by decide)

/-- **C6 counterexample.** The claim "recognized only if the marker token
appears at the start of the body" fails: the body `"pad <!-- M -->"` carries
the token only in a non-initial position, yet the pagination scan records its
comment (`includes` is a substring check). -/
theorem marker_nonInitial_recognized :
    findCommentId (mkMarker "M") [[⟨3, "pad <!-- M -->"⟩]] = some 3
    ∧ startsWithL (mkMarker "M").data "pad <!-- M -->".data = false := by
  constructor
  · decide
  · decide

/-- **C6 (amended).** The upsert recognizes an existing comment whenever the
marker token `<!-- markerText -->` appears verbatim *anywhere* in its body
(a substring check, not an at-the-start check); and every body the upsert
composes places the marker token at the very start. -/
theorem marker_match_and_placement (m s t : String) (i : Nat)
    (env : String) (ctx : GithubActionContext) (input : CommentInput) :
    isMatch (mkMarker m) ⟨i, s ++ mkMarker m ++ t⟩ = true
    ∧ startsWithL (mkMarker input.markerText).data (composeBody env ctx input).data = true :=
  ⟨strIncludes_append3 s (mkMarker m) t, composeBody_startsWith env ctx input⟩

/-- **C7.** When the diff file reads as the empty string, the body posted by
`commentDiff` carries the literal `No changes found.` placeholder inside the
fenced diff block; non-empty contents are posted unchanged inside the fenced
block. -/
theorem commentDiff_empty_placeholder (env : String) (ctx : GithubActionContext)
    (dc : DiffComment) (p2 : Bool) :
    (commentDiff env ctx dc (.ok "") true p2).1 =
        [⟨dc.markerText, dc.titleText, "```diff\nNo changes found.\n```"⟩]
    ∧ ∀ content : String, content ≠ "" →
        (commentDiff env ctx dc (.ok content) true p2).1 =
          [⟨dc.markerText, dc.titleText, "```diff\n" ++ content ++ "\n```"⟩] := by
  constructor
  · rfl
  · intro content hc
    unfold commentDiff
    simp [hc]

/-- **C7 witness.** `commentDiff_empty_placeholder` at concrete inputs: the
empty file yields the placeholder body, the file `"+ x"` is posted
unchanged. -/
theorem commentDiff_empty_placeholder_witness :
    (commentDiff "1" ctx0 dc0 (.ok "") true true).1 =
        [⟨dc0.markerText, dc0.titleText, "```diff\nNo changes found.\n```"⟩]
    ∧ (commentDiff "1" ctx0 dc0 (.ok "+ x") true true).1 =
        [⟨dc0.markerText, dc0.titleText, "```diff\n" ++ "+ x" ++ "\n```"⟩] :=
  ⟨(commentDiff_empty_placeholder "1" ctx0 dc0 true).1,
    (commentDiff_empty_placeholder "1" ctx0 dc0 true).2 "+ x" (by decide)⟩

/-- **C4 counterexample.** The claim says a failing initial file read also
leads to the artifacts fallback; but `readFile` runs before the `try`, so a
read failure issues no upsert call at all and the error propagates. -/
theorem commentDiff_read_error_propagates :
    commentDiff "1" ctx0 dc0 (.error "ENOENT") false true = ([], .error "ENOENT") := rfl

/-- **C4 (amended).** When the first upsert post of the diff fails,
`commentDiff` falls back to posting, via the same upsert, a plain-text
message whose link ends in `#artifacts` and which carries no diff content
(it is independent of the file content and contains no fenced diff block);
a failure of the initial file read, however, propagates without any post. -/
theorem commentDiff_fallback_spec (env : String) (ctx : GithubActionContext)
    (dc : DiffComment) (content : String) (p2 : Bool) :
    (commentDiff env ctx dc (.ok content) false p2).1 =
        [ ⟨dc.markerText, dc.titleText,
            "```diff\n" ++ (if content = "" then "No changes found." else content) ++ "\n```"⟩
        , ⟨dc.markerText, dc.titleText, fallbackBodyText env ctx.context⟩ ]
    ∧ strIncludes (fallbackBodyText env ctx.context) "#artifacts)" = true
    ∧ (∀ (e : String) (p1' p2' : Bool),
        commentDiff env ctx dc (.error e) p1' p2' = ([], .error e))
    ∧ strIncludes (fallbackBodyText "1" ctx0.context) "```diff" = false := by
  refine ⟨?_, ?_, ?_, ?_⟩
  · unfold commentDiff
    cases p2 <;> simp
  · have he : fallbackBodyText env ctx.context =
        ("The diff could not be posted as a comment. You can download it from the [workflow artifacts](" ++
            githubActionRunUrl env ctx.context) ++ "#artifacts)" ++ "." := by
      unfold fallbackBodyText
      rw [show ("#artifacts)." : String) = "#artifacts)" ++ "." from rfl]
      simp [String.append_assoc]
    rw [he]
    exact strIncludes_append3 _ "#artifacts)" "."
  · intro e p1' p2'; rfl
  · decide

/-- **C4 witness.** `commentDiff_fallback_spec` at a concrete failing post:
only conjuncts without further hypotheses are extracted, plus the read-error
conjunct discharged at the concrete error `"ENOENT"`. -/
theorem commentDiff_fallback_spec_witness :
    (commentDiff "1" ctx0 dc0 (.ok "+ y") false true).1 =
        [ ⟨dc0.markerText, dc0.titleText, "```diff\n" ++ "+ y" ++ "\n```"⟩
        , ⟨dc0.markerText, dc0.titleText, fallbackBodyText "1" ctx0.context⟩ ]
    ∧ strIncludes (fallbackBodyText "1" ctx0.context) "#artifacts)" = true
    ∧ commentDiff "1" ctx0 dc0 (.error "ENOENT") true false = ([], .error "ENOENT") := by
  have h := commentDiff_fallback_spec "1" ctx0 dc0 "+ y" true
  refine ⟨?_, h.2.1, h.2.2.1 "ENOENT" true false⟩
  have h1 := h.1
  simpa using h1

/-- **C5.** `commentDiffs` settles every per-descriptor report (the settled
result list has one entry per descriptor, in order) and raises an error if and
only if at least one report was rejected, in which case it raises exactly one
aggregate error whose cause carries the settled result of every descriptor. -/
theorem commentDiffs_spec (run : DiffComment → Except String Unit) (diffs : List DiffComment) :
    ((diffs.map run).any isRejected = true →
        commentDiffs run diffs = .error ("Posting diff comment failed", diffs.map run))
    ∧ ((diffs.map run).any isRejected = false → commentDiffs run diffs = .ok ())
    ∧ ((diffs.map run).any isRejected = true ↔ ∃ d ∈ diffs, ∃ e, run d = .error e)
    ∧ (diffs.map run).length = diffs.length := by
  refine ⟨?_, ?_, ?_, List.length_map diffs run⟩
  · intro h
    unfold commentDiffs
    rw [if_pos h]
  · intro h
    unfold commentDiffs
    rw [if_neg (by simp [h])]
  · rw [List.any_eq_true]
    constructor
    · rintro ⟨r, hr, hrej⟩
      obtain ⟨d, hd, rfl⟩ := List.mem_map.mp hr
      cases hrun : run d with
      | error e => exact ⟨d, hd, e, hrun⟩
      | ok u => rw [hrun] at hrej; exact absurd hrej (by simp [isRejected])
    · rintro ⟨d, hd, e, he⟩
      exact ⟨run d, List.mem_map_of_mem run hd, by rw [he]; rfl⟩

/-- **C5 witness.** `commentDiffs_spec` on three concrete descriptors of which
exactly one fails: the aggregate error carries all three settled results. -/
theorem commentDiffs_spec_witness :
    commentDiffs run0 diffs0 =
      .error ("Posting diff comment failed", [.ok (), .error "boom", .ok ()]) := by
  have h := (commentDiffs_spec run0 diffs0).1 (by rfl)
  rw [show diffs0.map run0 = [Except.ok (), Except.error "boom", Except.ok ()] from rfl] at h
  exact h

/-- **C1 counterexample.** The claim fails when the issue already carries two
comments containing the marker token (the duplicate/race state the spec itself
mentions): after two upserts with the same marker and different bodies, the
store still holds *two* comments containing the token, not exactly one. -/
theorem comment_upsert_twice_claim_false :
    ((comment "1" ctx0
        [comment "1" ctx0 [[⟨1, "<!-- M --> a"⟩, ⟨2, "<!-- M --> b"⟩]] 7 input0]
        8 input1).filter (isMatch (mkMarker "M"))).length = 2 := by
  decide

/-- **C1 (amended).** Upsert idempotence on an issue with no pre-existing
comment containing the marker token: running the upsert twice with the same
marker and two different bodies — the second run listing the store the first
run produced, the created comment having a fresh nonzero id — leaves exactly
one comment whose body contains the marker token, and its body is the
composed body of the second (latest) call. -/
theorem comment_upsert_twice (env : String) (ctx : GithubActionContext)
    (pages1 pages2 : List (List IssueComment)) (nextId nextId2 : Nat)
    (m t1 t2 b1 b2 : String)
    (_hb : b1 ≠ b2)
    (h0 : ∀ c ∈ pages1.flatten, isMatch (mkMarker m) c = false)
    (hfresh : ∀ c ∈ pages1.flatten, c.id ≠ nextId)
    (hnz : nextId ≠ 0)
    (hpag : pages2.flatten = comment env ctx pages1 nextId ⟨m, t1, b1⟩) :
    (comment env ctx pages2 nextId2 ⟨m, t2, b2⟩).filter (isMatch (mkMarker m)) =
      [⟨nextId, composeBody env ctx ⟨m, t2, b2⟩⟩] := by
  have step1 : findCommentId (mkMarker m) pages1 = none :=
    findCommentId_eq_none (mkMarker m) pages1 h0
  have step2 : comment env ctx pages1 nextId ⟨m, t1, b1⟩ =
      pages1.flatten ++ [⟨nextId, composeBody env ctx ⟨m, t1, b1⟩⟩] := by
    unfold comment createComment
    rw [step1]
  have step3 : pages2.flatten =
      pages1.flatten ++ [⟨nextId, composeBody env ctx ⟨m, t1, b1⟩⟩] := by
    rw [hpag, step2]
  have hnew : isMatch (mkMarker m) ⟨nextId, composeBody env ctx ⟨m, t1, b1⟩⟩ = true :=
    isMatch_composeBody env ctx ⟨m, t1, b1⟩ nextId
  have step4 : findCommentId (mkMarker m) pages2 = some nextId := by
    apply findCommentId_unique
    · intro c hc hmc
      rw [step3] at hc
      rcases List.mem_append.mp hc with hcl | hcr
      · exact absurd (h0 c hcl) (by simp [hmc])
      · rw [List.mem_singleton.mp hcr]
    · refine ⟨⟨nextId, composeBody env ctx ⟨m, t1, b1⟩⟩, ?_, hnew⟩
      rw [step3]
      exact List.mem_append_right _ (List.mem_singleton.mpr rfl)
  have step5 : comment env ctx pages2 nextId2 ⟨m, t2, b2⟩ =
      updateComment pages2.flatten nextId (composeBody env ctx ⟨m, t2, b2⟩) := by
    unfold comment
    rw [step4]
    simp [hnz]
  have step6 : updateComment pages2.flatten nextId (composeBody env ctx ⟨m, t2, b2⟩) =
      pages1.flatten ++ [⟨nextId, composeBody env ctx ⟨m, t2, b2⟩⟩] := by
    rw [step3]
    unfold updateComment
    rw [List.map_append]
    have hl : pages1.flatten.map
        (fun c => if c.id == nextId
          then { c with body := composeBody env ctx ⟨m, t2, b2⟩ } else c) = pages1.flatten := by
      have := updateComment_of_ne pages1.flatten nextId
        (composeBody env ctx ⟨m, t2, b2⟩) hfresh
      unfold updateComment at this
      exact this
    rw [hl]
    simp
  rw [step5, step6, List.filter_append]
  have hfl : pages1.flatten.filter (isMatch (mkMarker m)) = [] := by
    rw [List.filter_eq_nil_iff]
    intro c hc
    simp [h0 c hc]
  rw [hfl]
  have hnew2 : isMatch (mkMarker m) ⟨nextId, composeBody env ctx ⟨m, t2, b2⟩⟩ = true :=
    isMatch_composeBody env ctx ⟨m, t2, b2⟩ nextId
  simp [hnew2]

/-- **C1 witness.** `comment_upsert_twice` starting from an empty issue:
marker `M`, bodies `body-one` then `body-two`, created id `7`; the second run
lists the one-comment store the first run created, and the final store's only
marker-containing comment carries the second composed body. -/
theorem comment_upsert_twice_witness :
    (comment "1" ctx0 [[⟨7, composeBody "1" ctx0 input0⟩]] 8 input1).filter
        (isMatch (mkMarker "M")) = [⟨7, composeBody "1" ctx0 input1⟩] :=
  comment_upsert_twice "1" ctx0 [] [[⟨7, composeBody "1" ctx0 input0⟩]] 7 8
    "M" "Title" "Title" "body-one" "body-two"
    (by decide) (by intro c hc; exact absurd hc (List.not_mem_nil c))
    (by intro c hc; exact absurd hc (List.not_mem_nil c)) (by decide)
    (by decide)

end GovukFrontend
